import Mathlib

/-!
Verification of the VISA_server bridge (src/VISA_server/main.cpp).

Strings of the C++ program are modelled as `List Char`; the vendor VISA layer
is modelled by explicit success flags and result values carried in the state
records below.  Every definition mirrors one function of `main.cpp`:

* `toLower`, `containsSub`  — `toLower` and `std::string::find != npos`;
* `getInstrumentIdn`        — lines 50-71;
* `findLoop`/`findInstrument` — `findInstrument`, lines 86-136 (the pair also
  counts how many candidates had their IDN queried, to express that the loop
  stops at the first match);
* `rstripCRLF`, `backD`, `handle_client` — `handle_client`, lines 143-212,
  returning the observable effects of one request (bytes written to the
  instrument, number of `viRead` calls, requested read length, final read
  buffer, bytes sent back to the client).
-/

set_option autoImplicit false

/-- One lower-cased character, as `std::tolower` acts on the ASCII range. -/
def lowerChar (c : Char) : Char :=
  if 'A' ≤ c ∧ c ≤ 'Z' then Char.ofNat (c.toNat + 32) else c

/-- `toLower` of main.cpp lines 74-78: lower-case every character. -/
def toLower (s : List Char) : List Char :=
  s.map lowerChar

/-- `s.find(key) != std::string::npos`: `key` occurs as a contiguous
substring of `s` (the empty key occurs in every string). -/
def containsSub (s key : List Char) : Bool :=
  match s with
  | [] => key.isEmpty
  | _ :: rest => key.isPrefixOf s || containsSub rest key

/-- One candidate resource during discovery: its descriptor, whether
`viFindNext` reaching it succeeds (irrelevant for the first candidate,
which comes from `viFindRsrc`), whether the transient `viOpen` succeeds,
and the identity string returned by `viQueryf` (`none` when the query
fails). -/
structure Candidate where
  desc : List Char
  findNextOk : Bool
  openOk : Bool
  queryResult : Option (List Char)

/-- `getInstrumentIdn` of main.cpp lines 50-71: open the candidate
transiently and query `*IDN?`; any failure yields the empty string. -/
def getInstrumentIdn (c : Candidate) : List Char :=
  if c.openOk = false then []
  else
    match c.queryResult with
    | none => []
    | some s => s

/-- The discovery loop of `findInstrument` (main.cpp lines 108-127).
Returns the found descriptor (nil when none matched) together with the
number of candidates whose IDN was queried, so that early exit at the
first match is observable.  `isFirst` tells whether the candidate came
from `viFindRsrc` (no `viFindNext` call) or needs a `viFindNext` call,
whose failure skips the candidate (`continue`). -/
def findLoop (lkey : List Char) : List Candidate → Bool → List Char × Nat
  | [], _ => ([], 0)
  | c :: rest, isFirst =>
    if !isFirst && !c.findNextOk then
      findLoop lkey rest false
    else
      let idn := getInstrumentIdn c
      if !idn.isEmpty && containsSub (toLower idn) lkey then
        (c.desc, 1)
      else
        let r := findLoop lkey rest false
        (r.1, r.2 + 1)

/-- Result of `viFindRsrc`: either the enumeration itself failed, or it
produced a list of candidates (its length is `numInstrs`). -/
inductive FindRsrc where
  | err : FindRsrc
  | ok : List Candidate → FindRsrc

/-- `findInstrument` of main.cpp lines 86-136: the descriptor returned to
the caller (nil both on enumeration failure and when nothing matched). -/
def findInstrument (key : List Char) : FindRsrc → List Char
  | FindRsrc.err => []
  | FindRsrc.ok cands => (findLoop (toLower key) cands true).1

/-- How many candidates `findInstrument` queried for their IDN. -/
def findInstrumentQueries (key : List Char) : FindRsrc → Nat
  | FindRsrc.err => 0
  | FindRsrc.ok cands => (findLoop (toLower key) cands true).2

/-- An all-success candidate: `viFindNext` and `viOpen` succeed and the
identity query returns `idn`.  This is the spec-level view of an
enumerated resource list as a list of (descriptor, identity) pairs. -/
def mkCand (d idn : List Char) : Candidate :=
  ⟨d, true, true, some idn⟩

/-- The match test of the discovery loop at spec level, on a
(descriptor, identity) pair: non-empty identity whose lower-casing
contains the (already lower-cased) key. -/
def specMatches (lkey : List Char) (p : List Char × List Char) : Bool :=
  !p.2.isEmpty && containsSub (toLower p.2) lkey

/-- Modelled from the spec: the "last non-whitespace character" of a line
(the wording of the Request classification sentence in the data model
section). -/
def lastNonWs (s : List Char) : Option Char :=
  (s.reverse.dropWhile (fun c => c == ' ' || c == '\t' || c == '\r' || c == '\n')).head?

/-- The per-request state of the instrument session as `handle_client`
can observe it: whether `viWrite` succeeds, whether `viRead` succeeds,
and the bytes the instrument has available for reading. -/
structure Instr where
  writeOk : Bool
  readOk : Bool
  pending : List Char

/-- A `viRead` of at most `maxLen` bytes: on success the instrument
returns its available bytes truncated to `maxLen` (`retCount` is the
length of the result). -/
def viReadRet (instr : Instr) (maxLen : Nat) : Option (List Char) :=
  if instr.readOk = true then some (instr.pending.take maxLen) else none

/-- `constexpr size_t READ_BUFFER_SIZE = 2048` (main.cpp line 145). -/
def READ_BUFFER_SIZE : Nat := 2048

/-- `command.erase(command.find_last_not_of("\r\n") + 1)` (line 164):
remove the maximal trailing run of CR/LF characters. -/
def rstripCRLF (s : List Char) : List Char :=
  (s.reverse.dropWhile (fun c => c == '\r' || c == '\n')).reverse

/-- `command.back()`, with an arbitrary default for the empty string on
which the C++ call would be undefined (the default is never consulted:
see the in-bounds theorem for the classification). -/
def backD (s : List Char) : Char :=
  s.getLastD ' '

/-- Fixed acknowledgment for non-query commands (main.cpp line 181). -/
def ackMessage : List Char :=
  "コマンド送信完了 (応答なし)".toList

/-- Fixed response on `viWrite` failure, already newline-terminated as
written on line 177. -/
def writeErrorMessage : List Char :=
  "エラー: 計測器への書き込みに失敗しました\n".toList

/-- Fixed reply text on `viRead` failure (main.cpp line 194). -/
def readErrorMessage : List Char :=
  "エラー: 応答の読み取りに失敗しました".toList

/-- Observable effects of serving one request line. -/
structure BridgeEffects where
  wrote : Option (List Char)
  readAttempts : Nat
  readReq : Option Nat
  buffer : Option (List Char)
  response : Option (List Char)
deriving DecidableEq

/-- `handle_client` of main.cpp lines 143-212, for one received line
(the bytes before the `\n` delimiter).  Mirrors the source order:
strip trailing CR/LF; return silently when empty; `viWrite` the line
plus `\n`; on write failure send the fixed error and stop; otherwise
classify by the last character, perform at most one bounded `viRead`
for queries, and send the reply newline-terminated. -/
def handle_client (instr : Instr) (line : List Char) : BridgeEffects :=
  let command := rstripCRLF line
  if command = [] then
    { wrote := none, readAttempts := 0, readReq := none, buffer := none, response := none }
  else
    let visa_command := command ++ ['\n']
    if instr.writeOk = false then
      { wrote := some visa_command, readAttempts := 0, readReq := none, buffer := none,
        response := some writeErrorMessage }
    else if backD command = '?' then
      let response_buffer := List.replicate READ_BUFFER_SIZE (Char.ofNat 0)
      match viReadRet instr (READ_BUFFER_SIZE - 1) with
      | some data =>
        let buf := data ++ response_buffer.drop data.length
        let reply := buf.take data.length
        { wrote := some visa_command, readAttempts := 1,
          readReq := some (READ_BUFFER_SIZE - 1), buffer := some buf,
          response := some (reply ++ ['\n']) }
      | none =>
        { wrote := some visa_command, readAttempts := 1,
          readReq := some (READ_BUFFER_SIZE - 1), buffer := some response_buffer,
          response := some (readErrorMessage ++ ['\n']) }
    else
      { wrote := some visa_command, readAttempts := 0, readReq := none, buffer := none,
        response := some (ackMessage ++ ['\n']) }

example : rstripCRLF "*IDN?\r\n".toList = "*IDN?".toList := by decide

example : (handle_client ⟨true, true, "TEK\n".toList⟩ "*IDN?".toList).response
    = some ("TEK\n\n".toList) := by decide

example : (handle_client ⟨true, true, [] ⟩ "OUTPUT ON".toList).response
    = some (ackMessage ++ ['\n']) := by decide

example : findInstrument "tek".toList
    (FindRsrc.ok [mkCand "USB0".toList "HP8563".toList,
                  mkCand "USB1".toList "TEKTRONIX MSO54".toList])
    = "USB1".toList := by decide

/-- The last element of a list followed by a non-empty replicate block is
the replicated element. -/
theorem getLast?_append_replicate_succ {α : Type} (xs : List α) (c : α) (k : Nat) :
    (xs ++ List.replicate (k + 1) c).getLast? = some c := by
  rw [List.replicate_succ', ← List.append_assoc, List.getLast?_concat]

/-- C8: a line that is empty after stripping trailing CR/LF produces no
write to the instrument, no response to the client, and no read. -/
theorem c8_empty_line_silent (instr : Instr) (line : List Char)
    (h : rstripCRLF line = []) :
    (handle_client instr line).wrote = none ∧
    (handle_client instr line).response = none ∧
    (handle_client instr line).readAttempts = 0 := by
  simp [handle_client, h]

/-- Witness for the empty-line theorem at the concrete line `"\r\n"`. -/
theorem c8_witness :
    rstripCRLF ("\r\n".toList) = [] ∧
    ((handle_client ⟨true, true, []⟩ ("\r\n".toList)).wrote = none ∧
     (handle_client ⟨true, true, []⟩ ("\r\n".toList)).response = none ∧
     (handle_client ⟨true, true, []⟩ ("\r\n".toList)).readAttempts = 0) :=
  ⟨by decide, c8_empty_line_silent ⟨true, true, []⟩ ("\r\n".toList) (by decide)⟩

/-- C9: whenever a write to the instrument is attempted (so the code went
past the empty-line guard and can reach the classification), the stripped
command is non-empty and its last character is well-defined: the
`getLastD` used to model `command.back()` returns the actual last
element, never the out-of-range default. -/
theorem c9_classification_in_bounds (instr : Instr) (line : List Char)
    (h : (handle_client instr line).wrote ≠ none) :
    rstripCRLF line ≠ [] ∧
    (rstripCRLF line).getLast? = some (backD (rstripCRLF line)) := by
  have hne : rstripCRLF line ≠ [] := by
    intro he
    exact h (by simp [handle_client, he])
  refine ⟨hne, ?_⟩
  obtain ⟨x, hx⟩ := Option.isSome_iff_exists.mp (List.getLast?_isSome.mpr hne)
  rw [backD, List.getLastD_eq_getLast?, hx]
  rfl

/-- Witness for the in-bounds theorem at the concrete line `"*IDN?"`. -/
theorem c9_witness :
    (handle_client ⟨true, true, []⟩ ("*IDN?".toList)).wrote ≠ none ∧
    (rstripCRLF ("*IDN?".toList) ≠ [] ∧
     (rstripCRLF ("*IDN?".toList)).getLast? = some (backD (rstripCRLF ("*IDN?".toList)))) :=
  ⟨by decide, c9_classification_in_bounds ⟨true, true, []⟩ ("*IDN?".toList) (by decide)⟩

/-- C6: when the write to the instrument fails, the client gets the fixed
write-error message and no read is attempted, whatever the line was. -/
theorem c6_write_failure_no_read (instr : Instr) (line : List Char)
    (hne : rstripCRLF line ≠ []) (hw : instr.writeOk = false) :
    (handle_client instr line).response = some writeErrorMessage ∧
    (handle_client instr line).readAttempts = 0 := by
  simp [handle_client, hne, hw]

/-- Witness for the write-failure theorem on a query line, showing that
even a line ending in a question mark triggers no read. -/
theorem c6_witness :
    rstripCRLF ("*IDN?".toList) ≠ [] ∧
    (Instr.mk false true ("X".toList)).writeOk = false ∧
    ((handle_client ⟨false, true, ("X".toList)⟩ ("*IDN?".toList)).response = some writeErrorMessage ∧
     (handle_client ⟨false, true, ("X".toList)⟩ ("*IDN?".toList)).readAttempts = 0) :=
  ⟨by decide, rfl, c6_write_failure_no_read ⟨false, true, ("X".toList)⟩ ("*IDN?".toList) (by decide) rfl⟩

/-- C4: a non-empty line whose last character is not a question mark,
with a successful write, triggers no read and is answered with the fixed
acknowledgment plus newline. -/
theorem c4_command_ack_no_read (instr : Instr) (line : List Char)
    (hne : rstripCRLF line ≠ []) (hnq : backD (rstripCRLF line) ≠ '?')
    (hw : instr.writeOk = true) :
    (handle_client instr line).readAttempts = 0 ∧
    (handle_client instr line).response = some (ackMessage ++ ['\n']) := by
  simp [handle_client, hne, hnq, hw]

/-- Witness for the acknowledgment theorem at the line `"SET VOLT 5"`. -/
theorem c4_witness :
    rstripCRLF ("SET VOLT 5".toList) ≠ [] ∧
    backD (rstripCRLF ("SET VOLT 5".toList)) ≠ '?' ∧
    ((handle_client ⟨true, true, []⟩ ("SET VOLT 5".toList)).readAttempts = 0 ∧
     (handle_client ⟨true, true, []⟩ ("SET VOLT 5".toList)).response = some (ackMessage ++ ['\n'])) :=
  ⟨by decide, by decide,
   c4_command_ack_no_read ⟨true, true, []⟩ ("SET VOLT 5".toList) (by decide) (by decide) rfl⟩

/-- C5 counterexample: for the command line `"OUTPUT ON"` with a
successful write, the client receives the fixed acknowledgment of the
code, which is not the text `"Command sent"` named by the claim. -/
theorem c5_counterexample :
    (handle_client ⟨true, true, []⟩ ("OUTPUT ON".toList)).response = some (ackMessage ++ ['\n']) ∧
    ackMessage ++ ['\n'] ≠ ("Command sent\n".toList) :=
  ⟨by decide, by decide⟩

/-- C5 amended: for the command line `"OUTPUT ON"` with a successful
write, the client receives exactly the fixed acknowledgment literal of
the code, newline-terminated. -/
theorem c5_ack_literal (instr : Instr) (hw : instr.writeOk = true) :
    (handle_client instr ("OUTPUT ON".toList)).response = some (ackMessage ++ ['\n']) := by
  cases instr with
  | mk w r p =>
    cases w
    · exact absurd hw (by simp)
    · rfl

/-- Witness for the acknowledgment-literal theorem at a concrete
instrument state. -/
theorem c5_witness :
    (Instr.mk true true []).writeOk = true ∧
    (handle_client ⟨true, true, []⟩ ("OUTPUT ON".toList)).response = some (ackMessage ++ ['\n']) :=
  ⟨rfl, c5_ack_literal ⟨true, true, []⟩ rfl⟩

/-- C2 counterexample: the line `"*IDN? "` (trailing space) has `?` as
its last non-whitespace character, yet with a successful write the code
performs no read and answers with the command acknowledgment — it is
classified as a command, because the code tests the literal last
character of the stripped line, not the last non-whitespace one. -/
theorem c2_counterexample :
    lastNonWs (rstripCRLF ("*IDN? ".toList)) = some '?' ∧
    (handle_client ⟨true, true, ("X".toList)⟩ ("*IDN? ".toList)).readAttempts = 0 ∧
    (handle_client ⟨true, true, ("X".toList)⟩ ("*IDN? ".toList)).response
      = some (ackMessage ++ ['\n']) :=
  ⟨by decide, by decide, by decide⟩

/-- C2 amended: a read is ever attempted only when the last character of
the stripped line is `?`; and for a non-empty stripped line with a
successful write, exactly one read happens iff that last character is
`?`. -/
theorem c2_query_iff_last_char (instr : Instr) (line : List Char) :
    ((handle_client instr line).readAttempts ≠ 0 → backD (rstripCRLF line) = '?') ∧
    (rstripCRLF line ≠ [] → instr.writeOk = true →
      ((handle_client instr line).readAttempts = 1 ↔ backD (rstripCRLF line) = '?')) := by
  obtain ⟨w, r, p⟩ := instr
  by_cases hne : rstripCRLF line = []
  · simp [handle_client, hne]
  · by_cases hq : backD (rstripCRLF line) = '?'
    · cases w
      · simp [handle_client, hne, hq]
      · cases r <;> simp [handle_client, viReadRet, hne, hq]
    · cases w <;> simp [handle_client, hne, hq]

/-- Witness for the classification theorem at the line `"*IDN?"`. -/
theorem c2_witness :
    rstripCRLF ("*IDN?".toList) ≠ [] ∧
    (Instr.mk true true ("X".toList)).writeOk = true ∧
    ((handle_client ⟨true, true, ("X".toList)⟩ ("*IDN?".toList)).readAttempts = 1 ↔
      backD (rstripCRLF ("*IDN?".toList)) = '?') :=
  ⟨by decide, rfl,
   (c2_query_iff_last_char ⟨true, true, ("X".toList)⟩ ("*IDN?".toList)).2 (by decide) rfl⟩

/-- C3: for a line whose stripped form ends in `?` and whose write
succeeds, exactly one read is performed, bounded by the buffer capacity
minus one, and on read success the response is exactly the returned
bytes plus newline — not the full buffer. -/
theorem c3_query_exact_payload (instr : Instr) (line : List Char)
    (hq : backD (rstripCRLF line) = '?') (hw : instr.writeOk = true) :
    (handle_client instr line).readAttempts = 1 ∧
    (handle_client instr line).readReq = some (READ_BUFFER_SIZE - 1) ∧
    (instr.readOk = true →
      (handle_client instr line).response
        = some ((viReadRet instr (READ_BUFFER_SIZE - 1)).getD [] ++ ['\n'])) := by
  have hne : rstripCRLF line ≠ [] := by
    intro he
    rw [he] at hq
    exact absurd hq (by decide)
  cases hr : instr.readOk <;>
    simp [handle_client, viReadRet, hne, hq, hw, hr, List.take_left]

/-- Witness for the exact-payload theorem: an `"*IDN?"` query whose read
returns `"TEK,MSO54\n"`. -/
theorem c3_witness :
    backD (rstripCRLF ("*IDN?".toList)) = '?' ∧
    ((handle_client ⟨true, true, ("TEK,MSO54\n".toList)⟩ ("*IDN?".toList)).readAttempts = 1 ∧
     (handle_client ⟨true, true, ("TEK,MSO54\n".toList)⟩ ("*IDN?".toList)).readReq
       = some (READ_BUFFER_SIZE - 1) ∧
     (handle_client ⟨true, true, ("TEK,MSO54\n".toList)⟩ ("*IDN?".toList)).response
       = some ((viReadRet ⟨true, true, ("TEK,MSO54\n".toList)⟩ (READ_BUFFER_SIZE - 1)).getD []
               ++ ['\n'])) := by
  have h := c3_query_exact_payload ⟨true, true, ("TEK,MSO54\n".toList)⟩ ("*IDN?".toList)
    (by decide) rfl
  exact ⟨by decide, h.1, h.2.1, h.2.2 rfl⟩

/-- C10: a successful query read requests at most 2047 bytes, so the
relayed payload is at most 2047 bytes and the final byte of the
2048-byte buffer is never overwritten: it stays NUL. -/
theorem c10_read_bounded_buffer_safe (instr : Instr) (line : List Char)
    (hq : backD (rstripCRLF line) = '?') (hw : instr.writeOk = true)
    (hr : instr.readOk = true) :
    (handle_client instr line).readReq = some (READ_BUFFER_SIZE - 1) ∧
    READ_BUFFER_SIZE - 1 = 2047 ∧
    (∃ payload, (handle_client instr line).response = some (payload ++ ['\n']) ∧
      payload.length ≤ 2047) ∧
    (∃ buf, (handle_client instr line).buffer = some buf ∧
      buf.length = READ_BUFFER_SIZE ∧ buf.getLast? = some (Char.ofNat 0)) := by
  have hne : rstripCRLF line ≠ [] := by
    intro he
    rw [he] at hq
    exact absurd hq (by decide)
  refine ⟨by simp [handle_client, viReadRet, hne, hq, hw, hr], by norm_num [READ_BUFFER_SIZE],
    ?_, ?_⟩
  · refine ⟨instr.pending.take (READ_BUFFER_SIZE - 1), ?_, ?_⟩
    · simp [handle_client, viReadRet, hne, hq, hw, hr, List.take_left]
    · simp only [READ_BUFFER_SIZE, List.length_take]
      omega
  · refine ⟨instr.pending.take (READ_BUFFER_SIZE - 1)
        ++ List.replicate (READ_BUFFER_SIZE - (instr.pending.take (READ_BUFFER_SIZE - 1)).length)
             (Char.ofNat 0), ?_, ?_, ?_⟩
    · simp [handle_client, viReadRet, hne, hq, hw, hr, List.drop_replicate]
    · simp only [List.length_append, List.length_replicate, List.length_take, READ_BUFFER_SIZE]
      omega
    · obtain ⟨k, hk⟩ :
          ∃ k, READ_BUFFER_SIZE - (instr.pending.take (READ_BUFFER_SIZE - 1)).length = k + 1 := by
        refine ⟨READ_BUFFER_SIZE - (instr.pending.take (READ_BUFFER_SIZE - 1)).length - 1, ?_⟩
        simp only [READ_BUFFER_SIZE, List.length_take]
        omega
      rw [hk, getLast?_append_replicate_succ]

/-- Witness for the bounded-read theorem at a concrete query. -/
theorem c10_witness :
    backD (rstripCRLF ("MEAS:VOLT?".toList)) = '?' ∧
    (handle_client ⟨true, true, ("1.0\n".toList)⟩ ("MEAS:VOLT?".toList)).readReq
      = some (READ_BUFFER_SIZE - 1) ∧
    (∃ buf, (handle_client ⟨true, true, ("1.0\n".toList)⟩ ("MEAS:VOLT?".toList)).buffer = some buf ∧
      buf.length = READ_BUFFER_SIZE ∧ buf.getLast? = some (Char.ofNat 0)) := by
  have h := c10_read_bounded_buffer_safe ⟨true, true, ("1.0\n".toList)⟩ ("MEAS:VOLT?".toList)
    (by decide) rfl rfl
  exact ⟨by decide, h.1, h.2.2.2⟩

/-- The `isFirst` flag does not affect the discovery loop when every
candidate of the list has a succeeding `viFindNext`. -/
theorem findLoop_flag (lkey : List Char) (cands : List Candidate) (b : Bool)
    (h : ∀ c ∈ cands, c.findNextOk = true) :
    findLoop lkey cands b = findLoop lkey cands true := by
  cases cands with
  | nil => rfl
  | cons c rest =>
    have hc : c.findNextOk = true := h c (by simp)
    simp [findLoop, hc]

/-- One step of the discovery loop on an all-success candidate list:
the head is queried regardless of the flag, and either matches or the
loop continues on the tail. -/
theorem findLoop_mk_cons (lkey : List Char) (p : List Char × List Char)
    (rest : List (List Char × List Char)) (b : Bool) :
    findLoop lkey ((p :: rest).map (fun q => mkCand q.1 q.2)) b
      = if specMatches lkey p then (p.1, 1)
        else ((findLoop lkey (rest.map (fun q => mkCand q.1 q.2)) false).1,
              (findLoop lkey (rest.map (fun q => mkCand q.1 q.2)) false).2 + 1) := by
  cases hm : specMatches lkey p with
  | true =>
    have hsc : (!p.2.isEmpty && containsSub (toLower p.2) lkey) = true := hm
    simp [findLoop, mkCand, getInstrumentIdn, hsc, hm]
  | false =>
    have hsc : (!p.2.isEmpty && containsSub (toLower p.2) lkey) = false := hm
    simp [findLoop, mkCand, getInstrumentIdn, hsc, hm]

/-- On an all-success candidate list the discovery loop returns the
descriptor of the first matching pair and has queried exactly the pairs
up to and including it (all pairs when nothing matches). -/
theorem findLoop_mk (lkey : List Char) (pairs : List (List Char × List Char)) (b : Bool) :
    findLoop lkey (pairs.map (fun p => mkCand p.1 p.2)) b
      = ((Option.map Prod.fst (List.find? (specMatches lkey) pairs)).getD [],
         if (List.find? (specMatches lkey) pairs).isSome
         then List.findIdx (specMatches lkey) pairs + 1
         else pairs.length) := by
  induction pairs generalizing b with
  | nil => simp [findLoop]
  | cons p rest ih =>
    rw [findLoop_mk_cons, ih false]
    cases hm : specMatches lkey p with
    | true =>
      simp [hm, List.find?_cons_of_pos _ hm, List.findIdx_cons]
    | false =>
      have hneg : ¬ (specMatches lkey p = true) := by simp [hm]
      rw [List.find?_cons_of_neg _ hneg]
      simp only [hm, List.findIdx_cons, List.length_cons, if_false, Bool.false_eq_true,
        cond_false]
      cases hfind : (List.find? (specMatches lkey) rest).isSome <;> simp [hfind]

/-- C1 counterexample: with the empty key and a single resource whose
identity query succeeds with the empty identity string, that identity
(lower-cased) does contain the (lower-cased) key, yet the code reports
NotFound instead of the descriptor of that resource, because the loop
additionally requires a non-empty identity. -/
theorem c1_counterexample :
    containsSub (toLower ([] : List Char)) (toLower ([] : List Char)) = true ∧
    findInstrument ([] : List Char)
      (FindRsrc.ok [mkCand ("USB0::INSTR".toList) []]) = [] ∧
    ("USB0::INSTR".toList) ≠ ([] : List Char) :=
  ⟨by decide, by decide, by decide⟩

/-- C1 amended: on every enumerated list of (descriptor, identity) pairs
and every key, resolution returns the descriptor of the first pair whose
identity is non-empty and, lower-cased, contains the lower-cased key
(NotFound, the empty descriptor, when no pair qualifies or zero
resources are enumerated), and it queries exactly the candidates up to
and including the match — iteration stops there. -/
theorem c1_first_nonempty_match (key : List Char) (pairs : List (List Char × List Char)) :
    findInstrument key (FindRsrc.ok (pairs.map (fun p => mkCand p.1 p.2)))
        = (Option.map Prod.fst (List.find? (specMatches (toLower key)) pairs)).getD []
    ∧ findInstrumentQueries key (FindRsrc.ok (pairs.map (fun p => mkCand p.1 p.2)))
        = (if (List.find? (specMatches (toLower key)) pairs).isSome
           then List.findIdx (specMatches (toLower key)) pairs + 1
           else pairs.length) := by
  constructor <;> simp [findInstrument, findInstrumentQueries, findLoop_mk]

/-- Dropping one failing candidate from anywhere in the enumeration does
not change the returned descriptor: a candidate whose IDN could not be
obtained never matches, and a candidate whose `viFindNext` fails in a
non-first position is skipped by `continue`. -/
theorem findLoop_skip (lkey : List Char) (ys : List Candidate) (bad : Candidate)
    (hys : ∀ c ∈ ys, c.findNextOk = true) :
    ∀ (xs : List Candidate) (b : Bool),
      getInstrumentIdn bad = [] ∨ (bad.findNextOk = false ∧ (xs ≠ [] ∨ b = false)) →
      (findLoop lkey (xs ++ bad :: ys) b).1 = (findLoop lkey (xs ++ ys) b).1 := by
  intro xs
  induction xs with
  | nil =>
    intro b hbad
    simp only [List.nil_append]
    rcases hbad with hidn | ⟨hfn, hxb⟩
    · by_cases hf : (!b && !bad.findNextOk) = true
      · rw [show findLoop lkey (bad :: ys) b = findLoop lkey ys false from by
          simp [findLoop, hf]]
        rw [findLoop_flag lkey ys false hys, findLoop_flag lkey ys b hys]
      · have h1 : findLoop lkey (bad :: ys) b
            = ((findLoop lkey ys false).1, (findLoop lkey ys false).2 + 1) := by
          simp [findLoop, hf, hidn]
        rw [h1, findLoop_flag lkey ys false hys, findLoop_flag lkey ys b hys]
    · have hb : b = false := by
        rcases hxb with h | h
        · exact absurd rfl h
        · exact h
      subst hb
      rw [show findLoop lkey (bad :: ys) false = findLoop lkey ys false from by
        simp [findLoop, hfn]]
  | cons x xs ih =>
    intro b hbad
    have hbad' : getInstrumentIdn bad = [] ∨ (bad.findNextOk = false ∧ (xs ≠ [] ∨ false = false)) := by
      rcases hbad with h | ⟨h1, h2⟩
      · exact Or.inl h
      · exact Or.inr ⟨h1, Or.inr rfl⟩
    simp only [List.cons_append]
    by_cases hf : (!b && !x.findNextOk) = true
    · rw [show findLoop lkey (x :: (xs ++ bad :: ys)) b = findLoop lkey (xs ++ bad :: ys) false from by
          simp [findLoop, hf],
        show findLoop lkey (x :: (xs ++ ys)) b = findLoop lkey (xs ++ ys) false from by
          simp [findLoop, hf]]
      exact ih false hbad'
    · by_cases hmx : (!(getInstrumentIdn x).isEmpty
          && containsSub (toLower (getInstrumentIdn x)) lkey) = true
      · rw [show findLoop lkey (x :: (xs ++ bad :: ys)) b = (x.desc, 1) from by
            simp [findLoop, hf, hmx],
          show findLoop lkey (x :: (xs ++ ys)) b = (x.desc, 1) from by
            simp [findLoop, hf, hmx]]
      · rw [show findLoop lkey (x :: (xs ++ bad :: ys)) b
              = ((findLoop lkey (xs ++ bad :: ys) false).1,
                 (findLoop lkey (xs ++ bad :: ys) false).2 + 1) from by
            simp [findLoop, hf, hmx],
          show findLoop lkey (x :: (xs ++ ys)) b
              = ((findLoop lkey (xs ++ ys) false).1,
                 (findLoop lkey (xs ++ ys) false).2 + 1) from by
            simp [findLoop, hf, hmx]]
        exact ih false hbad'

/-- C7: a candidate whose transient open or identity query fails (its
obtained IDN is empty), or whose `viFindNext` fails in a non-first
position, is skipped and discovery continues: the returned descriptor
is the same as if that candidate had not been enumerated at all.
The later candidates are assumed reachable (`viFindNext` succeeds for
them), since dropping the failing candidate renumbers them. -/
theorem c7_failing_candidate_skipped (key : List Char) (xs ys : List Candidate) (bad : Candidate)
    (hys : ∀ c ∈ ys, c.findNextOk = true)
    (hbad : getInstrumentIdn bad = [] ∨ (bad.findNextOk = false ∧ xs ≠ [])) :
    findInstrument key (FindRsrc.ok (xs ++ bad :: ys))
      = findInstrument key (FindRsrc.ok (xs ++ ys)) := by
  have hbad' : getInstrumentIdn bad = [] ∨ (bad.findNextOk = false ∧ (xs ≠ [] ∨ true = false)) := by
    rcases hbad with h | ⟨h1, h2⟩
    · exact Or.inl h
    · exact Or.inr ⟨h1, Or.inl h2⟩
  exact findLoop_skip (toLower key) ys bad hys xs true hbad'

/-- Witness for the skipped-candidate theorem: a middle candidate whose
transient open fails does not change the result of discovery. -/
theorem c7_witness :
    (∀ c ∈ [mkCand ("USB2".toList) ("TEKTRONIX MSO54".toList)], c.findNextOk = true) ∧
    getInstrumentIdn ⟨("USB1".toList), true, false, none⟩ = [] ∧
    findInstrument ("TEKTRONIX".toList)
        (FindRsrc.ok ([mkCand ("USB0".toList) ("HP8563".toList)]
          ++ ⟨("USB1".toList), true, false, none⟩
            :: [mkCand ("USB2".toList) ("TEKTRONIX MSO54".toList)]))
      = findInstrument ("TEKTRONIX".toList)
        (FindRsrc.ok ([mkCand ("USB0".toList) ("HP8563".toList)]
          ++ [mkCand ("USB2".toList) ("TEKTRONIX MSO54".toList)])) := by
  refine ⟨by decide, by decide, ?_⟩
  exact c7_failing_candidate_skipped ("TEKTRONIX".toList) _ _ _ (by decide) (Or.inl (by decide))
